import Mathlib

/-!
A shallow embedding of the kahoot-clone session core (`app.py`).

Python objects are modelled as follows: dictionaries keyed by strings become
association lists (Python dicts have unique keys; updates replace an entry in
place, inserts append, matching insertion-ordered dict semantics); the global
`games` registry becomes a `List (String × Game)` threaded explicitly;
`asyncio` timestamps become rationals; a WebSocket handle is modelled by its
presence (`ws : Bool`, true = live connection); outbound `send_json` calls
become lists of `(recipient id, Msg)` pairs returned by each operation;
`HTTPException(404)` and an uncaught `KeyError`/`IndexError` are distinct
constructors of `ApiError`; Python `int()` truncation toward zero is `pyInt`;
Python list indexing (including negative-index wraparound) is `pyIndex`.
-/

namespace Kahoot

/-- One answer option of a question: `{"id": ..., "text": ...}`. -/
structure QOption where
  id : String
  text : String
deriving Repr, DecidableEq

/-- One question of the bank: `{"q": ..., "options": [...], "answer": ...}`. -/
structure Question where
  q : String
  options : List QOption
  answer : String
deriving Repr, DecidableEq

/-- The hard-coded question bank `QUESTIONS` from `app.py`. -/
def QUESTIONS : List Question :=
  [ { q := "What is FastAPI?",
      options := [⟨"A", "Framework"⟩, ⟨"B", "DB"⟩, ⟨"C", "OS"⟩, ⟨"D", "Browser"⟩],
      answer := "A" },
    { q := "WebSocket is for?",
      options := [⟨"A", "Mail"⟩, ⟨"B", "Realtime"⟩, ⟨"C", "Storage"⟩, ⟨"D", "Auth"⟩],
      answer := "B" } ]

/-- `QUESTION_TIME = 15`. -/
def QUESTION_TIME : ℕ := 15

/-- `BASE_SCORE = 1000`. -/
def BASE_SCORE : ℕ := 1000

/-- A participant record, one value of the `game["players"]` dict.
`ws` is true when a live connection handle is stored, false for `None`. -/
structure Player where
  name : String
  score : ℤ
  ws : Bool
  role : String
deriving Repr, DecidableEq

/-- One room's state, the dict created by `create_game`. -/
structure Game where
  question_index : ℤ
  started : Bool
  locked : Bool
  question_start : Option ℚ
  players : List (String × Player)
  answered : List String
  answers_count : List (String × ℕ)
deriving Repr, DecidableEq

/-- The room created by `create_game` (fields of the fresh dict). -/
def freshGame : Game :=
  { question_index := -1, started := false, locked := true,
    question_start := none, players := [], answered := [], answers_count := [] }

/-- The global `games` registry: room code ↦ room state. -/
abbrev Games := List (String × Game)

/-- Dict lookup `d.get(k)`: first entry with the given key. -/
def alookup {β : Type} (l : List (String × β)) (k : String) : Option β :=
  match l with
  | [] => none
  | (k', v) :: rest => if k' = k then some v else alookup rest k

/-- In-place mutation of the value stored under an existing key
(`d[k].field = ...` or rebinding `d[k] = ...` for a `k` already present):
every entry with that key is replaced, positions preserved. -/
def aset {β : Type} (l : List (String × β)) (k : String) (v : β) : List (String × β) :=
  l.map (fun kv => if kv.1 = k then (k, v) else kv)

/-- Dict insert-or-update `d[k] = v`: replaces in place when the key exists,
appends otherwise (Python dicts preserve insertion order). -/
def ainsert {β : Type} (l : List (String × β)) (k : String) (v : β) : List (String × β) :=
  if l.any (fun kv => kv.1 = k) then aset l k v else l ++ [(k, v)]

/-- Python `int()` on a rational: truncation toward zero. -/
def pyInt (q : ℚ) : ℤ := if 0 ≤ q then ⌊q⌋ else -⌊-q⌋

/-- Python list indexing `l[i]` with an integer index: negative indices wrap
from the end; out-of-range indexing raises (modelled as `none`). -/
def pyIndex {α : Type} (l : List α) (i : ℤ) : Option α :=
  if 0 ≤ i then l.get? i.toNat
  else if (-i).toNat ≤ l.length then l.get? (l.length - (-i).toNat) else none

/-- Outbound realtime messages (`send_json` payloads), tagged by their
`"type"` field. -/
inductive Msg where
  | question (q : String) (options : List QOption) (time : ℕ)
  | lock (correct_id : String)
  | stats (counts : List (String × ℕ))
  | question_end
  | players (data : List String)
  | leaderboard (finished : Bool) (data : List (String × ℤ))
  | wait
  | show_chart
deriving Repr, DecidableEq

/-- Errors surfaced by the HTTP-style endpoints: `http c` is an
`HTTPException(c)` (a deliberate client error for `c = 404`); `keyError` and
`indexError` are uncaught Python exceptions (an internal server error, not a
client error). -/
inductive ApiError where
  | http (code : ℕ)
  | keyError
  | indexError
deriving Repr, DecidableEq

/-- `OPTION_COLOR_MAP`: option identifier ↦ presentation color. -/
def OPTION_COLOR_MAP : List (String × String) :=
  [("A", "blue"), ("B", "yellow"), ("C", "red"), ("D", "green")]

/-- `COLOR_OPTION_MAP = {v: k for k, v in OPTION_COLOR_MAP.items()}`. -/
def COLOR_OPTION_MAP : List (String × String) :=
  OPTION_COLOR_MAP.map (fun kv => (kv.2, kv.1))

/-- Lines 190–192 of `player_ws`: the latency-weighted score of a correct
answer, `int(BASE_SCORE * (max(0, QUESTION_TIME - elapsed) / QUESTION_TIME))`. -/
def compute_score (elapsed : ℚ) : ℤ :=
  let remaining : ℚ := max 0 ((QUESTION_TIME : ℚ) - elapsed)
  pyInt ((BASE_SCORE : ℚ) * (remaining / (QUESTION_TIME : ℚ)))

/-- Stable insertion of a player into a list sorted descending by score. -/
def insertByScore (p : Player) : List Player → List Player
  | [] => [p]
  | q :: rest => if q.score ≤ p.score then p :: q :: rest else q :: insertByScore p rest

/-- Python's stable `sorted(..., key=lambda x: x["score"], reverse=True)`. -/
def sortByScoreDesc : List Player → List Player
  | [] => []
  | p :: rest => insertByScore p (sortByScoreDesc rest)

/-- `broadcast_players`: roster of player-role names, sent to every live
connection regardless of role. -/
def broadcast_players (g : Game) : List (String × Msg) :=
  let visible := (g.players.filter (fun kv => kv.2.role = "player")).map (fun kv => kv.2.name)
  g.players.filterMap (fun kv => if kv.2.ws then some (kv.1, Msg.players visible) else none)

/-- `send_answer_stats`: the live tally, to connected `"HOST"`/`"SCREEN"`
roles only. -/
def send_answer_stats (g : Game) : List (String × Msg) :=
  g.players.filterMap (fun kv =>
    if (kv.2.role = "HOST" ∨ kv.2.role = "SCREEN") ∧ kv.2.ws then
      some (kv.1, Msg.stats g.answers_count) else none)

/-- `notify_question_end`: host-only nudge after a window closes. -/
def notify_question_end (g : Game) : List (String × Msg) :=
  g.players.filterMap (fun kv =>
    if kv.2.role = "HOST" ∧ kv.2.ws then some (kv.1, Msg.question_end) else none)

/-- The ranked score data built by `send_leaderboard`. -/
def lb_data (g : Game) : List (String × ℤ) :=
  (sortByScoreDesc ((g.players.filter (fun kv => kv.2.role = "player")).map Prod.snd)).map
    (fun p => (p.name, p.score))

/-- `send_leaderboard`: the payload to everyone connected when `finished`,
otherwise to `"HOST"`/`"SCREEN"` with a waiting placeholder for the rest. -/
def send_leaderboard (g : Game) (finished : Bool) : List (String × Msg) :=
  g.players.filterMap (fun kv =>
    if kv.2.ws then
      some (kv.1,
        if finished = true ∨ kv.2.role = "HOST" ∨ kv.2.role = "SCREEN" then
          Msg.leaderboard finished (lb_data g)
        else Msg.wait)
    else none)

/-- The question broadcast inside `next_question` (lines 82–89). -/
def question_broadcast (g : Game) (q : Question) : List (String × Msg) :=
  g.players.filterMap (fun kv =>
    if kv.2.ws then some (kv.1, Msg.question q.q q.options QUESTION_TIME) else none)

/-- `create_game`, with the randomly generated pin passed explicitly. -/
def create_game (gs : Games) (pin : String) : Games := ainsert gs pin freshGame

/-- The JSON object returned by `check_pin`: `started` is `none` when the
response carries no `started` field. -/
structure CheckResp where
  valid : Bool
  started : Option Bool
deriving Repr, DecidableEq

/-- `check_pin` (`GET /check-pin/{pin}`). -/
def check_pin (gs : Games) (pin : String) : CheckResp :=
  match alookup gs pin with
  | none => { valid := false, started := none }
  | some g => { valid := true, started := some g.started }

/-- Lines 68–69 of `next_question`: mark the room started and increment the
question index (applied before the bank-length check). -/
def advanceGame (g : Game) : Game :=
  { g with started := true, question_index := g.question_index + 1 }

/-- Lines 77–80 of `next_question`: unlock, clear the responded set, re-key
the tally to the new question's options, stamp the window-open time. -/
def openQuestion (g : Game) (q : Question) (now : ℚ) : Game :=
  { g with locked := false, answered := [],
           answers_count := q.options.map (fun o => (o.id, 0)),
           question_start := some now }

/-- `next_question` (`POST /next/{pin}`): returns the updated registry, the
messages sent, and the JSON `status` string. The scheduling of the
`lock_question` task is modelled by `lock_question` being callable later with
the index captured here. -/
def next_question (gs : Games) (pin : String) (now : ℚ) :
    Except ApiError (Games × List (String × Msg) × String) :=
  match alookup gs pin with
  | none => .error (.http 404)
  | some g =>
    if (QUESTIONS.length : ℤ) ≤ (advanceGame g).question_index then
      .ok (aset gs pin (advanceGame g), send_leaderboard (advanceGame g) true, "finished")
    else
      match pyIndex QUESTIONS (advanceGame g).question_index with
      | none => .error .indexError
      | some q =>
        .ok (aset gs pin (openQuestion (advanceGame g) q now),
             question_broadcast (openQuestion (advanceGame g) q now) q, "sent")

/-- Line 102: `game["locked"] = True`. -/
def lockGame (g : Game) : Game := { g with locked := true }

/-- Lines 105–110: reveal the correct option to every live connection. -/
def lock_broadcast (g : Game) (q : Question) : List (String × Msg) :=
  g.players.filterMap (fun kv =>
    if kv.2.ws then some (kv.1, Msg.lock q.answer) else none)

/-- `lock_question`, the deadline callback, with the sleep elided: applied to
the registry as it stands when the timer fires, with the question index that
was captured at schedule time. -/
def lock_question (gs : Games) (pin : String) (q_index : ℤ) :
    Games × List (String × Msg) :=
  match alookup gs pin with
  | none => (gs, [])
  | some g =>
    if g.question_index ≠ q_index then (gs, [])
    else
      match pyIndex QUESTIONS q_index with
      | none => (aset gs pin (lockGame g), [])
      | some q =>
        (aset gs pin (lockGame g),
          lock_broadcast (lockGame g) q ++ notify_question_end (lockGame g))

/-- Outcome of a realtime connect attempt. -/
inductive ConnectOutcome where
  | closed (code : ℕ)
  | accepted (role : String)
deriving Repr, DecidableEq

/-- Lines 138–140: role derivation from the reserved identifiers. -/
def connectRole (player_id : String) : String :=
  if player_id = "HOST" ∨ player_id = "SCREEN" then player_id else "player"

/-- The participant record built at connect time (lines 144–149): a fresh
connection and role, with the prior score preserved
(`games[pin]["players"].get(player_id, {}).get("score", 0)`). -/
def reconnectRecord (g : Game) (player_id name : String) : Player :=
  { name := name,
    score := ((alookup g.players player_id).map Player.score).getD 0,
    ws := true, role := connectRole player_id }

/-- Lines 144–149: insert or replace the participant record. -/
def registerPlayer (g : Game) (player_id name : String) : Game :=
  { g with players := ainsert g.players player_id (reconnectRecord g player_id name) }

/-- The connection phase of `player_ws` (lines 127–152): close with policy
violation 1008 on an unknown pin; otherwise derive the role from the reserved
identifiers, register or replace the participant (preserving a prior score)
and broadcast the roster. -/
def ws_connect (gs : Games) (pin player_id name : String) :
    ConnectOutcome × Games × List (String × Msg) :=
  match alookup gs pin with
  | none => (.closed 1008, gs, [])
  | some g =>
    (.accepted (connectRole player_id),
      aset gs pin (registerPlayer g player_id name),
      broadcast_players (registerPlayer g player_id name))

/-- Lines 199–201: set the stored connection to `None`. -/
def markDisconnected (g : Game) (player_id : String) (p : Player) : Game :=
  { g with players := aset g.players player_id { p with ws := false } }

/-- The `WebSocketDisconnect` handler (lines 199–201): mark the connection
absent, keep the participant and its score, broadcast the roster. -/
def ws_disconnect (gs : Games) (pin player_id : String) : Games × List (String × Msg) :=
  match alookup gs pin with
  | none => (gs, [])
  | some g =>
    match alookup g.players player_id with
    | none => (gs, [])
    | some p =>
      (aset gs pin (markDisconnected g player_id p),
        broadcast_players (markDisconnected g player_id p))

/-- An inbound realtime JSON object as read by the player loop via
`data.get`: the `type` and `option` fields, modelled at string granularity
(`none` when the field is absent). The loop only compares these fields
against string constants and a string-keyed map, so a non-string field value
takes the same branches as an absent one. -/
structure InMsg where
  type : Option String
  option : Option String
deriving Repr, DecidableEq

/-- Result of one iteration of the `player_ws` receive loop: the room state
after the iteration, the messages sent, and whether the iteration raised an
uncaught exception (the state keeps the mutations applied before the raise). -/
structure HRes where
  game : Game
  msgs : List (String × Msg)
  crashed : Bool
deriving Repr, DecidableEq

/-- Line 175: `game["answers_count"][selected_id] += 1`, given the count `c`
already looked up. Leaves every other field (in particular `players` and
`answered`) untouched. -/
def bumpCount (g : Game) (selected_id : String) (c : ℕ) : Game :=
  { g with answers_count := aset g.answers_count selected_id (c + 1) }

/-- Line 193: `game["players"][player_id]["score"] += score`, given the
participant record `p` already looked up. -/
def addScore (g : Game) (player_id : String) (p : Player) (cs : ℤ) : Game :=
  { g with players := aset g.players player_id { p with score := p.score + cs } }

/-- One iteration of the `player_ws` receive loop (lines 155–197), for a
connection whose `player_id` and `role` were fixed at connect time. The tally
update (`bumpCount`) leaves `players` untouched, so the participant lookup of
line 193 reads `g.players`. -/
def handle_message (g : Game) (player_id role : String) (data : InMsg) (now : ℚ) : HRes :=
  if role ≠ "player" then ⟨g, [], false⟩
  else if data.type ≠ some "answer" then ⟨g, [], false⟩
  else if g.locked = true ∨ player_id ∈ g.answered then ⟨g, [], false⟩
  else
    match data.option with
    | none => ⟨g, [], false⟩
    | some selected_color =>
      match alookup COLOR_OPTION_MAP selected_color with
      | none => ⟨g, [], false⟩
      | some selected_id =>
        if selected_id = "" then ⟨g, [], false⟩
        else
          match alookup g.answers_count selected_id with
          | none => ⟨g, [], true⟩
          | some c =>
            match pyIndex QUESTIONS g.question_index with
            | none => ⟨bumpCount g selected_id c, [], true⟩
            | some q =>
              match alookup OPTION_COLOR_MAP q.answer with
              | none => ⟨bumpCount g selected_id c, [], true⟩
              | some correct_color =>
                if selected_color = correct_color then
                  match g.question_start with
                  | none => ⟨bumpCount g selected_id c, [], true⟩
                  | some t0 =>
                    match alookup g.players player_id with
                    | none => ⟨bumpCount g selected_id c, [], true⟩
                    | some p =>
                      ⟨addScore (bumpCount g selected_id c) player_id p
                          (compute_score (now - t0)),
                        send_answer_stats (addScore (bumpCount g selected_id c) player_id p
                          (compute_score (now - t0))),
                        false⟩
                else
                  ⟨bumpCount g selected_id c,
                    send_answer_stats (bumpCount g selected_id c), false⟩

/-- `POST /show-chart/{pin}`: `games[pin]` raises `KeyError` when absent;
otherwise a `show_chart` cue to connected `"SCREEN"` roles. -/
def show_chart (gs : Games) (pin : String) : Except ApiError (List (String × Msg)) :=
  match alookup gs pin with
  | none => .error .keyError
  | some g =>
    .ok (g.players.filterMap (fun kv =>
      if kv.2.role = "SCREEN" ∧ kv.2.ws then some (kv.1, Msg.show_chart) else none))

/-- `POST /show-leaderboard/{pin}`: calls `send_leaderboard` (whose
`games[pin]` raises `KeyError` when absent) with `finished = False`. -/
def show_leaderboard_api (gs : Games) (pin : String) : Except ApiError (List (String × Msg)) :=
  match alookup gs pin with
  | none => .error .keyError
  | some g => .ok (send_leaderboard g false)

/-- The registry after `next_question` (unchanged when the call errors). -/
def nq_state (gs : Games) (pin : String) (now : ℚ) : Games :=
  match next_question gs pin now with
  | .ok (gs1, _, _) => gs1
  | .error _ => gs

/-- The `status` string returned by `next_question`, when the call succeeds. -/
def nq_status (gs : Games) (pin : String) (now : ℚ) : Option String :=
  match next_question gs pin now with
  | .ok (_, _, s) => some s
  | .error _ => none

/-- The registry after `n` successive `advance` calls on `gs`. -/
def advanceN (pin : String) (gs : Games) : ℕ → Games
  | 0 => gs
  | n + 1 => nq_state (advanceN pin gs n) pin 0

/-- A registry holding exactly one freshly created room. -/
def initReg (pin : String) : Games := create_game [] pin

/-- One operation of the session core addressed to an existing room (room
creation aside, these are all the entry points that can touch room state). -/
inductive Op where
  | advance (pin : String) (now : ℚ)
  | deadline (pin : String) (q_index : ℤ)
  | connect (pin player_id name : String)
  | disconnect (pin player_id : String)
  | message (pin player_id role : String) (data : InMsg) (now : ℚ)
  | chart (pin : String)
  | leaderboard (pin : String)

/-- The registry after one operation (read-only endpoints leave it alone). -/
def step (gs : Games) : Op → Games
  | .advance pin now => nq_state gs pin now
  | .deadline pin qi => (lock_question gs pin qi).1
  | .connect pin pid name => (ws_connect gs pin pid name).2.1
  | .disconnect pin pid => (ws_disconnect gs pin pid).1
  | .message pin pid role data now =>
      match alookup gs pin with
      | none => gs
      | some g => aset gs pin (handle_message g pid role data now).game
  | .chart _ => gs
  | .leaderboard _ => gs

/-- The registry after a sequence of operations. -/
def runOps (gs : Games) : List Op → Games
  | [] => gs
  | op :: rest => runOps (step gs op) rest

/-- The score of participant `pid` in room `pin`, when both exist. -/
def getScore (gs : Games) (pin pid : String) : Option ℤ :=
  (alookup gs pin).bind (fun g => (alookup g.players pid).map Player.score)

/-- A concrete room with question 0 open and one connected player, as left by
`create_game`, one connect and one `advance`. -/
def gOpen : Game :=
  { question_index := 0, started := true, locked := false, question_start := some 0,
    players := [("p1", { name := "Pat", score := 0, ws := true, role := "player" })],
    answered := [],
    answers_count := [("A", 0), ("B", 0), ("C", 0), ("D", 0)] }

/-- A concrete room with question 0 open and a host, a screen and two players
connected (the second player disconnected). -/
def gFull : Game :=
  { question_index := 0, started := true, locked := false, question_start := some 0,
    players := [("HOST", { name := "H", score := 0, ws := true, role := "HOST" }),
                ("SCREEN", { name := "S", score := 0, ws := true, role := "SCREEN" }),
                ("p1", { name := "Pat", score := 3, ws := true, role := "player" }),
                ("p2", { name := "Quinn", score := 7, ws := false, role := "player" })],
    answered := [],
    answers_count := [("A", 1), ("B", 0), ("C", 0), ("D", 0)] }

/-- A room on the last question (index 1 of a 2-question bank). -/
def gLast : Game := { gFull with question_index := 1 }

/-- The inbound message `{"type": "answer", "option": "blue"}`. -/
def mBlue : InMsg := { type := some "answer", option := some "blue" }

/-- The room after player `p1` submits `"blue"` (the correct answer of
question 0) at elapsed time 0 on `gOpen`. -/
def gAfterOne : Game := (handle_message gOpen "p1" "player" mBlue 0).game

/-- The room after `p1` submits the same answer a second time, still inside
the open window. -/
def gAfterTwo : Game := (handle_message gAfterOne "p1" "player" mBlue 0).game

end Kahoot

namespace Kahoot

/-! ### Association-list lemmas -/

theorem alookup_cons {β : Type} (k1 : String) (v1 : β) (rest : List (String × β))
    (k : String) :
    alookup ((k1, v1) :: rest) k = if k1 = k then some v1 else alookup rest k := rfl

theorem aset_cons {β : Type} (k1 : String) (v1 : β) (rest : List (String × β))
    (k : String) (v : β) :
    aset ((k1, v1) :: rest) k v = (if k1 = k then (k, v) else (k1, v1)) :: aset rest k v := rfl

theorem alookup_aset_self {β : Type} (l : List (String × β)) (k : String) (v : β) :
    alookup (aset l k v) k = (alookup l k).map (fun _ => v) := by
  induction l with
  | nil => rfl
  | cons kv rest ih =>
    obtain ⟨k1, v1⟩ := kv
    rw [aset_cons]
    by_cases h : k1 = k
    · rw [if_pos h, alookup_cons, if_pos rfl, alookup_cons, if_pos h]
      rfl
    · rw [if_neg h, alookup_cons, if_neg h, alookup_cons, if_neg h, ih]

theorem alookup_aset_ne {β : Type} (l : List (String × β)) (k k' : String) (v : β)
    (h : k' ≠ k) : alookup (aset l k v) k' = alookup l k' := by
  induction l with
  | nil => rfl
  | cons kv rest ih =>
    obtain ⟨k1, v1⟩ := kv
    rw [aset_cons]
    by_cases hk : k1 = k
    · rw [if_pos hk, alookup_cons, if_neg (fun hkk => h (hkk.symm)), alookup_cons,
        if_neg (fun hk1 => h (hk.symm.trans hk1).symm), ih]
    · rw [if_neg hk, alookup_cons, alookup_cons]
      by_cases hk' : k1 = k'
      · rw [if_pos hk', if_pos hk']
      · rw [if_neg hk', if_neg hk', ih]

theorem alookup_append {β : Type} (l1 l2 : List (String × β)) (k : String) :
    alookup (l1 ++ l2) k =
      (alookup l1 k).elim (alookup l2 k) (fun v => some v) := by
  induction l1 with
  | nil => rfl
  | cons kv rest ih =>
    obtain ⟨k1, v1⟩ := kv
    rw [List.cons_append, alookup_cons, alookup_cons]
    by_cases h : k1 = k
    · rw [if_pos h, if_pos h]
      rfl
    · rw [if_neg h, if_neg h, ih]

theorem any_key_eq_isSome {β : Type} (l : List (String × β)) (k : String) :
    l.any (fun kv => kv.1 = k) = (alookup l k).isSome := by
  induction l with
  | nil => rfl
  | cons kv rest ih =>
    obtain ⟨k1, v1⟩ := kv
    rw [List.any_cons, alookup_cons]
    by_cases h : k1 = k
    · simp [h]
    · simp only [h, decide_eq_false, Bool.false_or, if_neg h]
      simpa using ih

theorem alookup_ainsert_self {β : Type} (l : List (String × β)) (k : String) (v : β) :
    alookup (ainsert l k v) k = some v := by
  unfold ainsert
  by_cases h : l.any (fun kv => kv.1 = k)
  · rw [if_pos h, alookup_aset_self]
    rw [any_key_eq_isSome] at h
    cases hl : alookup l k
    · rw [hl] at h; simp at h
    · rfl
  · rw [if_neg h, alookup_append]
    rw [any_key_eq_isSome] at h
    cases hl : alookup l k
    · show alookup [(k, v)] k = some v
      rw [alookup_cons, if_pos rfl]
    · simp [hl] at h

theorem alookup_ainsert_ne {β : Type} (l : List (String × β)) (k k' : String) (v : β)
    (h : k' ≠ k) : alookup (ainsert l k v) k' = alookup l k' := by
  unfold ainsert
  by_cases ha : l.any (fun kv => kv.1 = k)
  · rw [if_pos ha, alookup_aset_ne _ _ _ _ h]
  · rw [if_neg ha, alookup_append]
    cases hl : alookup l k'
    · show alookup [(k, v)] k' = none
      rw [alookup_cons, if_neg (fun hk => h hk.symm)]
      rfl
    · rfl

/-! ### The answer scorer (claim C3) -/

theorem compute_score_eq_floor (e : ℚ) :
    compute_score e =
      ⌊(BASE_SCORE : ℚ) * max 0 ((QUESTION_TIME : ℚ) - e) / (QUESTION_TIME : ℚ)⌋ := by
  unfold compute_score pyInt
  have h0 : (0 : ℚ) ≤
      (BASE_SCORE : ℚ) * (max 0 ((QUESTION_TIME : ℚ) - e) / (QUESTION_TIME : ℚ)) :=
    mul_nonneg (by norm_num) (div_nonneg (le_max_left _ _) (by norm_num))
  rw [if_pos h0, mul_div_assoc]

theorem compute_score_nonneg (e : ℚ) : 0 ≤ compute_score e := by
  rw [compute_score_eq_floor]
  exact Int.floor_nonneg.mpr
    (div_nonneg (mul_nonneg (by norm_num) (le_max_left _ _)) (by norm_num))

/-- C3: the scorer computes `score = floor(baseScore * max(0, windowDuration -
elapsed) / windowDuration)`; at `elapsed = 0` it scores exactly `baseScore`, at
`elapsed = windowDuration` exactly `0`, and it is monotonically non-increasing
in the elapsed time. -/
theorem claim_C3_scorer :
    (∀ e : ℚ, compute_score e =
      ⌊(BASE_SCORE : ℚ) * max 0 ((QUESTION_TIME : ℚ) - e) / (QUESTION_TIME : ℚ)⌋) ∧
    compute_score 0 = (BASE_SCORE : ℤ) ∧
    compute_score (QUESTION_TIME : ℚ) = 0 ∧
    (∀ e1 e2 : ℚ, e1 ≤ e2 → compute_score e2 ≤ compute_score e1) := by
  refine ⟨compute_score_eq_floor, ?_, ?_, ?_⟩
  · norm_num [compute_score, pyInt, QUESTION_TIME, BASE_SCORE]
  · norm_num [compute_score, pyInt, QUESTION_TIME, BASE_SCORE]
  · intro e1 e2 h
    rw [compute_score_eq_floor, compute_score_eq_floor]
    apply Int.floor_le_floor
    apply div_le_div_of_nonneg_right ?_ (by norm_num)
    exact mul_le_mul_of_nonneg_left (max_le_max le_rfl (by linarith)) (by norm_num)

/-- C3 witness: a later answer scores no more than an earlier one. -/
theorem claim_C3_scorer_witness : compute_score 2 ≤ compute_score 1 :=
  claim_C3_scorer.2.2.2 1 2 (by norm_num)

/-! ### The stale deadline callback guard (claim C4) -/

/-- C4: a deadline callback firing when the room no longer exists or when
`currentQuestionIndex` differs from the index captured at schedule time
leaves the registry unchanged and sends no message. -/
theorem claim_C4_stale_timer_noop (gs : Games) (pin : String) (qi : ℤ)
    (h : alookup gs pin = none ∨
      ∃ g, alookup gs pin = some g ∧ g.question_index ≠ qi) :
    lock_question gs pin qi = (gs, []) := by
  unfold lock_question
  split
  · rfl
  next g2 hsome =>
    rcases h with h | ⟨g, hg, hne⟩
    · rw [h] at hsome
      exact absurd hsome (by simp)
    · rw [hg] at hsome
      injection hsome with he
      subst he
      rw [if_pos hne]

/-- C4 witness: a callback for question 5 fires on a room showing question 0. -/
theorem claim_C4_witness :
    lock_question [("AAAAAA", gOpen)] "AAAAAA" 5 = ([("AAAAAA", gOpen)], []) :=
  claim_C4_stale_timer_noop _ _ _ (Or.inr ⟨gOpen, rfl, by decide⟩)

/-! ### Silent rejection of invalid realtime input (claim C5) -/

/-- C5: an inbound message from a non-player role, or whose kind is not
`"answer"`, or arriving while the window is locked, or carrying an option
label that maps to no known option identifier, is silently ignored: the room
state is unchanged, no message is sent and no error is raised. -/
theorem claim_C5_invalid_input_ignored (g : Game) (pid role : String)
    (data : InMsg) (now : ℚ)
    (h : role ≠ "player" ∨ data.type ≠ some "answer" ∨ g.locked = true ∨
      data.option.bind (alookup COLOR_OPTION_MAP) = none) :
    handle_message g pid role data now = ⟨g, [], false⟩ := by
  unfold handle_message
  rcases h with h | h | h | h
  · rw [if_pos h]
  · by_cases h1 : role ≠ "player"
    · rw [if_pos h1]
    · rw [if_neg h1, if_pos h]
  · by_cases h1 : role ≠ "player"
    · rw [if_pos h1]
    · rw [if_neg h1]
      by_cases h2 : data.type ≠ some "answer"
      · rw [if_pos h2]
      · rw [if_neg h2, if_pos (Or.inl h)]
  · by_cases h1 : role ≠ "player"
    · rw [if_pos h1]
    · rw [if_neg h1]
      by_cases h2 : data.type ≠ some "answer"
      · rw [if_pos h2]
      · rw [if_neg h2]
        by_cases h3 : g.locked = true ∨ pid ∈ g.answered
        · rw [if_pos h3]
        · rw [if_neg h3]
          split
          · rfl
          next selected_color heq =>
            split
            · rfl
            next selected_id heq2 =>
              rw [heq] at h
              simp [heq2] at h

/-- C5 witness: an unmapped option label (`"purple"`) is ignored on an
otherwise valid answer message. -/
theorem claim_C5_witness :
    handle_message gOpen "p1" "player"
      { type := some "answer", option := some "purple" } 0 = ⟨gOpen, [], false⟩ :=
  claim_C5_invalid_input_ignored _ _ _ _ _ (Or.inr (Or.inr (Or.inr (by decide))))

/-! ### Unknown room codes (claim C6) -/

/-- C6 amended: for an unknown room code, `advance` surfaces a 404 client
error and a realtime connect is closed with policy violation 1008, but the
chart and leaderboard endpoints raise an uncaught `KeyError` (an internal
server error), not a NotFound client error. -/
theorem claim_C6_amended (gs : Games) (pin pid name : String) (now : ℚ)
    (h : alookup gs pin = none) :
    next_question gs pin now = .error (.http 404) ∧
    show_chart gs pin = .error .keyError ∧
    show_leaderboard_api gs pin = .error .keyError ∧
    ws_connect gs pin pid name = (.closed 1008, gs, []) := by
  unfold next_question show_chart show_leaderboard_api ws_connect
  rw [h]
  exact ⟨rfl, rfl, rfl, rfl⟩

/-- C6 counterexample: the chart endpoint on an unknown code raises
`KeyError` instead of the 404 client error the claim requires. -/
theorem claim_C6_counterexample :
    show_chart [] "ZZZZZZ" = .error .keyError ∧
    show_chart [] "ZZZZZZ" ≠ .error (.http 404) := by
  refine ⟨rfl, fun h => ?_⟩
  rw [show show_chart [] "ZZZZZZ" = .error .keyError from rfl] at h
  exact absurd (Except.error.inj h) (by decide)

/-- C6 witness: the amended behaviour on the never-created code `"ZZZZZZ"`. -/
theorem claim_C6_witness :
    next_question [] "ZZZZZZ" 0 = .error (.http 404) ∧
    show_chart [] "ZZZZZZ" = .error .keyError ∧
    show_leaderboard_api [] "ZZZZZZ" = .error .keyError ∧
    ws_connect [] "ZZZZZZ" "p1" "Pat" = (.closed 1008, [], []) :=
  claim_C6_amended [] "ZZZZZZ" "p1" "Pat" 0 rfl

/-! ### The check-pin probe (claim C7) -/

/-- C7 amended: `check_pin` reports `valid = true` exactly when the code is
registered, and then `started` equals the room's `started` field; for an
unknown code the response is `{"valid": false}` with no `started` field at
all (so "returns an object with both a valid flag and a started flag" fails
for unknown codes). -/
theorem claim_C7_amended (gs : Games) (pin : String) :
    ((check_pin gs pin).valid = true ↔ (alookup gs pin).isSome = true) ∧
    (∀ g, alookup gs pin = some g → check_pin gs pin = ⟨true, some g.started⟩) ∧
    (alookup gs pin = none → check_pin gs pin = ⟨false, none⟩) := by
  unfold check_pin
  cases h : alookup gs pin with
  | none => simp
  | some g => simp

/-- C7 counterexample: for an unknown code the probe's response carries no
`started` field, refuting "returns an object with both a valid flag and a
started flag". -/
theorem claim_C7_counterexample :
    (check_pin [] "ZZZZZZ").valid = false ∧ (check_pin [] "ZZZZZZ").started = none :=
  ⟨rfl, rfl⟩

/-- C7 witness: on a fresh registered room the probe returns
`{valid: true, started: false}`. -/
theorem claim_C7_witness :
    check_pin (initReg "AAAAAA") "AAAAAA" = ⟨true, some false⟩ :=
  (claim_C7_amended (initReg "AAAAAA") "AAAAAA").2.1 freshGame (by decide)

/-! ### Double answers are double-counted (claim C2) -/

theorem compute_score_zero_elapsed : compute_score 0 = 1000 := by
  norm_num [compute_score, pyInt, QUESTION_TIME, BASE_SCORE]

/-- C2 (code bug): the receive loop checks `player_id in game["answered"]` but
never adds anything to `answered`, so a second submission from the same player
inside the same open window passes every guard again: both submissions are
tallied (count 2 for option "A") and both are scored (2 × 1000), while the
responded set stays empty after both. -/
theorem claim_C2_double_answer_bug :
    (handle_message gOpen "p1" "player" mBlue 0).crashed = false ∧
    gAfterOne.answered = [] ∧
    alookup gAfterOne.answers_count "A" = some 1 ∧
    (handle_message gAfterOne "p1" "player" mBlue 0).crashed = false ∧
    gAfterTwo.answered = [] ∧
    alookup gAfterTwo.answers_count "A" = some 2 ∧
    (alookup gAfterTwo.players "p1").map Player.score = some 2000 := by
  refine ⟨by decide, by decide, by decide, by decide, by decide, by decide, ?_⟩
  simp [gAfterTwo, gAfterOne, gOpen, mBlue, handle_message, COLOR_OPTION_MAP,
    OPTION_COLOR_MAP, alookup, aset, pyIndex, QUESTIONS, bumpCount, addScore,
    send_answer_stats, compute_score_zero_elapsed]

/-! ### The finished branch of advance (claim C10) -/

/-- C10: when the incremented index is at or beyond the bank length, `advance`
mutates only `started` and `question_index` — the lock flag, responded set,
tally, window timestamp and every participant record are untouched — returns
`"finished"`, and the messages sent form the leaderboard broadcast with the
finished marker, delivered to every connected participant. -/
theorem claim_C10_finished_frame (gs : Games) (pin : String) (g : Game) (now : ℚ)
    (hg : alookup gs pin = some g)
    (hend : (QUESTIONS.length : ℤ) ≤ g.question_index + 1) :
    next_question gs pin now =
      .ok (aset gs pin (advanceGame g), send_leaderboard (advanceGame g) true,
        "finished") ∧
    (advanceGame g).started = true ∧
    (advanceGame g).question_index = g.question_index + 1 ∧
    (advanceGame g).locked = g.locked ∧
    (advanceGame g).answered = g.answered ∧
    (advanceGame g).answers_count = g.answers_count ∧
    (advanceGame g).question_start = g.question_start ∧
    (advanceGame g).players = g.players ∧
    (∀ r p, (r, p) ∈ (advanceGame g).players → p.ws = true →
      (r, Msg.leaderboard true (lb_data (advanceGame g))) ∈
        send_leaderboard (advanceGame g) true) := by
  refine ⟨?_, rfl, rfl, rfl, rfl, rfl, rfl, rfl, ?_⟩
  · unfold next_question
    split
    next hnone => rw [hg] at hnone; exact Option.noConfusion hnone
    next g2 hsome =>
      rw [hg] at hsome
      injection hsome with he
      subst he
      rw [if_pos (show (QUESTIONS.length : ℤ) ≤ (advanceGame g).question_index from hend)]
  · intro r p hmem hws
    unfold send_leaderboard
    refine List.mem_filterMap.mpr ⟨(r, p), hmem, ?_⟩
    simp [hws]

/-- C10 witness: advancing past the last question of `gLast` returns
finished, applies only the `advanceGame` mutation, and the connected player
`p1` receives the finished leaderboard. -/
theorem claim_C10_witness :
    next_question [("AAAAAA", gLast)] "AAAAAA" 0 =
      .ok (aset [("AAAAAA", gLast)] "AAAAAA" (advanceGame gLast),
        send_leaderboard (advanceGame gLast) true, "finished") ∧
    ("p1", Msg.leaderboard true (lb_data (advanceGame gLast))) ∈
      send_leaderboard (advanceGame gLast) true :=
  ⟨(claim_C10_finished_frame [("AAAAAA", gLast)] "AAAAAA" gLast 0 rfl (by decide)).1,
   (claim_C10_finished_frame [("AAAAAA", gLast)] "AAAAAA" gLast 0 rfl
      (by decide)).2.2.2.2.2.2.2.2 "p1"
      { name := "Pat", score := 3, ws := true, role := "player" } (by decide) rfl⟩

/-! ### The advance trajectory (claim C1) -/

theorem pyIndex_isSome {α : Type} (l : List α) (i : ℤ) (h0 : 0 ≤ i)
    (hl : i < (l.length : ℤ)) : ∃ a, pyIndex l i = some a := by
  unfold pyIndex
  rw [if_pos h0]
  have hlt : i.toNat < l.length := by omega
  exact ⟨l.get ⟨i.toNat, hlt⟩, List.get?_eq_get hlt⟩

/-- On a registered room, `next_question` either opens the next question (the
index is still inside the bank) or finishes — and in both branches the stored
index grows by exactly one. -/
theorem next_question_cases (gs : Games) (pin : String) (now : ℚ) (g : Game)
    (hg : alookup gs pin = some g) (hlo : -1 ≤ g.question_index) :
    ((QUESTIONS.length : ℤ) ≤ g.question_index + 1 ∧
      next_question gs pin now =
        .ok (aset gs pin (advanceGame g), send_leaderboard (advanceGame g) true,
          "finished")) ∨
    (g.question_index + 1 < (QUESTIONS.length : ℤ) ∧
      ∃ q, pyIndex QUESTIONS (g.question_index + 1) = some q ∧
        next_question gs pin now =
          .ok (aset gs pin (openQuestion (advanceGame g) q now),
            question_broadcast (openQuestion (advanceGame g) q now) q, "sent")) := by
  by_cases hc : (QUESTIONS.length : ℤ) ≤ g.question_index + 1
  · left
    refine ⟨hc, ?_⟩
    unfold next_question
    split
    next hnone => rw [hg] at hnone; exact Option.noConfusion hnone
    next g2 hsome =>
      rw [hg] at hsome
      injection hsome with he
      subst he
      rw [if_pos (show (QUESTIONS.length : ℤ) ≤ (advanceGame g).question_index from hc)]
  · right
    have hlt : g.question_index + 1 < (QUESTIONS.length : ℤ) := lt_of_not_le hc
    obtain ⟨q, hq⟩ := pyIndex_isSome QUESTIONS (g.question_index + 1) (by omega) hlt
    refine ⟨hlt, q, hq, ?_⟩
    unfold next_question
    split
    next hnone => rw [hg] at hnone; exact Option.noConfusion hnone
    next g2 hsome =>
      rw [hg] at hsome
      injection hsome with he
      subst he
      rw [if_neg (show ¬ (QUESTIONS.length : ℤ) ≤ (advanceGame g).question_index from hc)]
      rw [show pyIndex QUESTIONS (advanceGame g).question_index =
            pyIndex QUESTIONS (g.question_index + 1) from rfl, hq]

/-- After a successful `advance` the room's index has grown by exactly one and
the room is marked started. -/
theorem nq_state_index (gs : Games) (pin : String) (now : ℚ) (g : Game)
    (hg : alookup gs pin = some g) (hlo : -1 ≤ g.question_index) :
    ∃ g2, alookup (nq_state gs pin now) pin = some g2 ∧
      g2.question_index = g.question_index + 1 ∧ g2.started = true := by
  rcases next_question_cases gs pin now g hg hlo with ⟨hc, hrun⟩ | ⟨hlt, q, hq, hrun⟩
  · refine ⟨advanceGame g, ?_, rfl, rfl⟩
    unfold nq_state
    rw [hrun]
    show alookup (aset gs pin (advanceGame g)) pin = some (advanceGame g)
    rw [alookup_aset_self, hg]
    rfl
  · refine ⟨openQuestion (advanceGame g) q now, ?_, rfl, rfl⟩
    unfold nq_state
    rw [hrun]
    show alookup (aset gs pin (openQuestion (advanceGame g) q now)) pin =
      some (openQuestion (advanceGame g) q now)
    rw [alookup_aset_self, hg]
    rfl

/-- The status string of an `advance` call on a registered room. -/
theorem nq_status_eq (gs : Games) (pin : String) (now : ℚ) (g : Game)
    (hg : alookup gs pin = some g) (hlo : -1 ≤ g.question_index) :
    nq_status gs pin now =
      some (if (QUESTIONS.length : ℤ) ≤ g.question_index + 1 then "finished"
        else "sent") := by
  rcases next_question_cases gs pin now g hg hlo with ⟨hc, hrun⟩ | ⟨hlt, q, hq, hrun⟩
  · unfold nq_status
    rw [hrun, if_pos hc]
  · unfold nq_status
    rw [hrun, if_neg (not_le.mpr hlt)]

/-- The index after `n` advances on a fresh room is exactly `n - 1`. -/
theorem advanceN_spec (pin : String) : ∀ n : ℕ,
    ∃ g, alookup (advanceN pin (initReg pin) n) pin = some g ∧
      g.question_index = (n : ℤ) - 1 := by
  intro n
  induction n with
  | zero =>
    refine ⟨freshGame, ?_, by norm_num [freshGame]⟩
    exact alookup_ainsert_self [] pin freshGame
  | succ n ih =>
    obtain ⟨g, hg, hi⟩ := ih
    obtain ⟨g2, hg2, hidx2, _⟩ :=
      nq_state_index (advanceN pin (initReg pin) n) pin 0 g hg (by rw [hi]; omega)
    refine ⟨g2, hg2, ?_⟩
    rw [hidx2, hi]
    push_cast
    ring

/-- C1 amended: on a fresh room, `currentQuestionIndex` increases by exactly 1
on every `advance` call with no upper clamp — after `n` calls it is `n - 1`,
growing past the bank length instead of staying fixed there — and each call
made once the incremented index is at or beyond the bank length returns
`"finished"` (earlier calls return `"sent"`). -/
theorem claim_C1_amended (pin : String) (n : ℕ) :
    (∃ g, alookup (advanceN pin (initReg pin) n) pin = some g ∧
      g.question_index = (n : ℤ) - 1) ∧
    nq_status (advanceN pin (initReg pin) n) pin 0 =
      some (if QUESTIONS.length ≤ n then "finished" else "sent") := by
  obtain ⟨g, hg, hi⟩ := advanceN_spec pin n
  refine ⟨⟨g, hg, hi⟩, ?_⟩
  rw [nq_status_eq (advanceN pin (initReg pin) n) pin 0 g hg (by rw [hi]; omega)]
  by_cases hc : QUESTIONS.length ≤ n
  · rw [if_pos (show (QUESTIONS.length : ℤ) ≤ g.question_index + 1 by
      rw [hi]; omega), if_pos hc]
  · rw [if_neg (show ¬ (QUESTIONS.length : ℤ) ≤ g.question_index + 1 by
      rw [hi]; omega), if_neg hc]

/-- C1 counterexample: the bank has 2 questions, yet after 4 advance calls on
a fresh room the stored index is 3, not the bank length 2 — the index does
not stay fixed once it reaches the bank length. -/
theorem claim_C1_counterexample :
    ((alookup (advanceN "AAAAAA" (initReg "AAAAAA") 4) "AAAAAA").map
      Game.question_index) = some 3 ∧
    (3 : ℤ) ≠ (QUESTIONS.length : ℤ) := by
  refine ⟨by decide, by decide⟩

/-! ### Stats broadcasts go to host/screen only (claim C8) -/

theorem mem_send_answer_stats_elim (g : Game) (r : String) (m : Msg)
    (h : (r, m) ∈ send_answer_stats g) :
    ∃ p, (r, p) ∈ g.players ∧ (p.role = "HOST" ∨ p.role = "SCREEN") ∧
      p.role ≠ "player" ∧ p.ws = true ∧ m = Msg.stats g.answers_count := by
  unfold send_answer_stats at h
  obtain ⟨kv, hmem, hf⟩ := List.mem_filterMap.mp h
  obtain ⟨r2, p⟩ := kv
  split at hf
  next hc =>
    injection hf with hf2
    obtain ⟨hr, hm⟩ := Prod.mk.injEq .. ▸ hf2
    subst hr
    refine ⟨p, hmem, hc.1, ?_, hc.2, hm.symm⟩
    rcases hc.1 with hrole | hrole <;>
      exact fun hp => by simp [hp] at hrole
  next => exact Option.noConfusion hf

theorem mem_send_answer_stats_intro (g : Game) (r : String) (p : Player)
    (hmem : (r, p) ∈ g.players) (hrole : p.role = "HOST" ∨ p.role = "SCREEN")
    (hws : p.ws = true) :
    (r, Msg.stats g.answers_count) ∈ send_answer_stats g := by
  unfold send_answer_stats
  exact List.mem_filterMap.mpr ⟨(r, p), hmem, by rw [if_pos ⟨hrole, hws⟩]⟩

/-- Every message the receive loop emits is a stats broadcast over the
post-iteration room. -/
theorem handle_message_msgs (g : Game) (pid role : String) (data : InMsg) (now : ℚ) :
    (handle_message g pid role data now).msgs = [] ∨
    (handle_message g pid role data now).msgs =
      send_answer_stats (handle_message g pid role data now).game := by
  unfold handle_message
  repeat' split
  all_goals first | exact Or.inl rfl | exact Or.inr rfl

/-- C8: every recipient of a message emitted by the receive loop (the stats
broadcast after an accepted answer) is a connected participant whose role is
`"HOST"` or `"SCREEN"` — never `"player"` — and the payload is the updated
tally; every connected host/screen participant is a recipient of the stats
broadcast; and whatever the loop emits is exactly the stats broadcast over
the post-iteration room. -/
theorem claim_C8_stats_to_host_screen_only :
    (∀ g pid role data now r m,
      (r, m) ∈ (handle_message g pid role data now).msgs →
      ∃ p, (r, p) ∈ (handle_message g pid role data now).game.players ∧
        (p.role = "HOST" ∨ p.role = "SCREEN") ∧ p.role ≠ "player" ∧ p.ws = true ∧
        m = Msg.stats (handle_message g pid role data now).game.answers_count) ∧
    (∀ g r p, (r, p) ∈ g.players → (p.role = "HOST" ∨ p.role = "SCREEN") →
      p.ws = true → (r, Msg.stats g.answers_count) ∈ send_answer_stats g) ∧
    (∀ g pid role data now,
      (handle_message g pid role data now).msgs = [] ∨
      (handle_message g pid role data now).msgs =
        send_answer_stats (handle_message g pid role data now).game) := by
  refine ⟨?_, ?_, handle_message_msgs⟩
  · intro g pid role data now r m hm
    rcases handle_message_msgs g pid role data now with h | h
    · rw [h] at hm
      exact absurd hm (List.not_mem_nil _)
    · rw [h] at hm
      exact mem_send_answer_stats_elim _ _ _ hm
  · intro g r p hmem hrole hws
    exact mem_send_answer_stats_intro g r p hmem hrole hws

/-- C8 witness: in `gFull` the connected host receives the stats payload. -/
theorem claim_C8_witness :
    ("HOST", Msg.stats gFull.answers_count) ∈ send_answer_stats gFull :=
  claim_C8_stats_to_host_screen_only.2.1 gFull "HOST"
    { name := "H", score := 0, ws := true, role := "HOST" }
    (by decide) (Or.inl rfl) rfl

/-! ### Scores never decrease (claim C9) -/

/-- One receive-loop iteration either leaves the participant map untouched or
adds a non-negative amount to the submitting player's score. -/
theorem handle_message_players_cases (g : Game) (pid role : String)
    (data : InMsg) (now : ℚ) :
    (handle_message g pid role data now).game.players = g.players ∨
    ∃ p cs, alookup g.players pid = some p ∧ 0 ≤ cs ∧
      (handle_message g pid role data now).game.players =
        aset g.players pid { p with score := p.score + cs } := by
  unfold handle_message
  repeat' split
  all_goals try exact Or.inl rfl
  next p hp =>
    exact Or.inr ⟨p, _, hp, compute_score_nonneg _, rfl⟩

theorem players_score_mono (ps : List (String × Player)) (pid pid2 : String)
    (p : Player) (cs : ℤ) (hcs : 0 ≤ cs) (hp : alookup ps pid = some p) (s : ℤ)
    (hs : (alookup ps pid2).map Player.score = some s) :
    ∃ s2, (alookup (aset ps pid { p with score := p.score + cs }) pid2).map
        Player.score = some s2 ∧ s ≤ s2 := by
  by_cases he : pid2 = pid
  · subst he
    rw [alookup_aset_self, hp]
    rw [hp] at hs
    simp only [Option.map_some'] at hs ⊢
    injection hs with hs
    exact ⟨p.score + cs, rfl, by omega⟩
  · rw [alookup_aset_ne _ _ _ _ he]
    exact ⟨s, hs, le_rfl⟩

theorem players_score_nonneg_pres (ps : List (String × Player)) (pid : String)
    (p : Player) (cs : ℤ) (hcs : 0 ≤ cs) (hp : alookup ps pid = some p)
    (h : ∀ pid2 s, (alookup ps pid2).map Player.score = some s → 0 ≤ s) :
    ∀ pid2 s, (alookup (aset ps pid { p with score := p.score + cs }) pid2).map
        Player.score = some s → 0 ≤ s := by
  intro pid2 s hs
  by_cases he : pid2 = pid
  · subst he
    rw [alookup_aset_self, hp] at hs
    simp only [Option.map_some'] at hs
    injection hs with hs
    have h0 : 0 ≤ p.score := h pid2 p.score (by rw [hp]; rfl)
    omega
  · rw [alookup_aset_ne _ _ _ _ he] at hs
    exact h pid2 s hs

theorem getScore_eq (gs : Games) (pin pid : String) (g : Game)
    (hg : alookup gs pin = some g) :
    getScore gs pin pid = (alookup g.players pid).map Player.score := by
  unfold getScore
  rw [hg]
  rfl

theorem getScore_aset_same_players (gs : Games) (pin2 : String) (g g2 : Game)
    (hg : alookup gs pin2 = some g) (hpl : g2.players = g.players)
    (pin pid : String) :
    getScore (aset gs pin2 g2) pin pid = getScore gs pin pid := by
  by_cases hp : pin = pin2
  · subst hp
    rw [getScore_eq (aset gs pin g2) pin pid g2 (by rw [alookup_aset_self, hg]; rfl),
      getScore_eq gs pin pid g hg, hpl]
  · unfold getScore
    rw [alookup_aset_ne _ _ _ _ hp]

theorem next_question_ok_inv (gs : Games) (pin : String) (now : ℚ)
    (gs1 : Games) (msgs : List (String × Msg)) (st : String)
    (h : next_question gs pin now = .ok (gs1, msgs, st)) :
    ∃ g g2, alookup gs pin = some g ∧ g2.players = g.players ∧
      gs1 = aset gs pin g2 := by
  unfold next_question at h
  split at h
  · exact Except.noConfusion h
  next g hg =>
    split at h
    · injection h with h2
      cases h2
      exact ⟨g, advanceGame g, hg, rfl, rfl⟩
    · split at h
      · exact Except.noConfusion h
      next q hq =>
        injection h with h2
        cases h2
        exact ⟨g, openQuestion (advanceGame g) q now, hg, rfl, rfl⟩

theorem getScore_nq_state (gs : Games) (pin2 : String) (now : ℚ)
    (pin pid : String) :
    getScore (nq_state gs pin2 now) pin pid = getScore gs pin pid := by
  unfold nq_state
  cases hnq : next_question gs pin2 now with
  | error e => rfl
  | ok res =>
    obtain ⟨gs1, msgs, st⟩ := res
    obtain ⟨g, g2, hg, hpl, rfl⟩ := next_question_ok_inv gs pin2 now gs1 msgs st hnq
    exact getScore_aset_same_players gs pin2 g g2 hg hpl pin pid

theorem getScore_lock_question (gs : Games) (pin2 : String) (qi : ℤ)
    (pin pid : String) :
    getScore (lock_question gs pin2 qi).1 pin pid = getScore gs pin pid := by
  unfold lock_question
  split
  · rfl
  next g hg =>
    split
    · rfl
    · split
      · exact getScore_aset_same_players gs pin2 g (lockGame g) hg rfl pin pid
      · exact getScore_aset_same_players gs pin2 g (lockGame g) hg rfl pin pid

theorem getScore_disconnect (gs : Games) (pin2 pid2 pin pid : String) :
    getScore ((ws_disconnect gs pin2 pid2).1) pin pid = getScore gs pin pid := by
  unfold ws_disconnect
  split
  · rfl
  next g hg =>
    split
    · rfl
    next p hp =>
      by_cases hpin : pin = pin2
      · subst hpin
        rw [getScore_eq _ pin pid (markDisconnected g pid2 p)
            (by rw [alookup_aset_self, hg]; rfl),
          getScore_eq gs pin pid g hg]
        unfold markDisconnected
        by_cases hpid : pid = pid2
        · subst hpid
          rw [alookup_aset_self, hp]
          rfl
        · rw [alookup_aset_ne _ _ _ _ hpid]
      · unfold getScore
        rw [alookup_aset_ne _ _ _ _ hpin]

/-- A connect either leaves a participant's score untouched (other rooms,
other ids) or re-registers the very participant with the prior score
preserved (0 when there was none). -/
theorem getScore_connect (gs : Games) (pin2 pid2 name pin pid : String) :
    getScore ((ws_connect gs pin2 pid2 name).2.1) pin pid = getScore gs pin pid ∨
    (pin = pin2 ∧ pid = pid2 ∧
      getScore ((ws_connect gs pin2 pid2 name).2.1) pin pid =
        some ((getScore gs pin pid).getD 0)) := by
  unfold ws_connect
  split
  · exact Or.inl rfl
  next g hg =>
    by_cases hpin : pin = pin2
    · subst hpin
      by_cases hpid : pid = pid2
      · subst hpid
        right
        refine ⟨rfl, rfl, ?_⟩
        rw [getScore_eq _ pin pid (registerPlayer g pid name)
            (by rw [alookup_aset_self, hg]; rfl),
          getScore_eq gs pin pid g hg]
        unfold registerPlayer
        rw [alookup_ainsert_self]
        rfl
      · left
        rw [getScore_eq _ pin pid (registerPlayer g pid2 name)
            (by rw [alookup_aset_self, hg]; rfl),
          getScore_eq gs pin pid g hg]
        unfold registerPlayer
        rw [alookup_ainsert_ne _ _ _ _ hpid]
    · left
      unfold getScore
      rw [alookup_aset_ne _ _ _ _ hpin]

theorem step_advance_eq (gs : Games) (pin2 : String) (now : ℚ) :
    step gs (.advance pin2 now) = nq_state gs pin2 now := rfl

theorem step_deadline_eq (gs : Games) (pin2 : String) (qi : ℤ) :
    step gs (.deadline pin2 qi) = (lock_question gs pin2 qi).1 := rfl

theorem step_connect_eq (gs : Games) (pin2 pid2 name : String) :
    step gs (.connect pin2 pid2 name) = (ws_connect gs pin2 pid2 name).2.1 := rfl

theorem step_disconnect_eq (gs : Games) (pin2 pid2 : String) :
    step gs (.disconnect pin2 pid2) = (ws_disconnect gs pin2 pid2).1 := rfl

theorem step_message_eq (gs : Games) (pin2 pid2 role2 : String) (data : InMsg)
    (now : ℚ) :
    step gs (.message pin2 pid2 role2 data now) =
      match alookup gs pin2 with
      | none => gs
      | some g => aset gs pin2 (handle_message g pid2 role2 data now).game := rfl

/-- No operation ever lowers an existing participant's score. -/
theorem step_mono (gs : Games) (op : Op) (pin pid : String) (s : ℤ)
    (h : getScore gs pin pid = some s) :
    ∃ s2, getScore (step gs op) pin pid = some s2 ∧ s ≤ s2 := by
  cases op with
  | advance pin2 now =>
    exact ⟨s, (getScore_nq_state gs pin2 now pin pid).trans h, le_rfl⟩
  | deadline pin2 qi =>
    exact ⟨s, (getScore_lock_question gs pin2 qi pin pid).trans h, le_rfl⟩
  | connect pin2 pid2 name =>
    rcases getScore_connect gs pin2 pid2 name pin pid with heq | ⟨_, _, heq⟩
    · exact ⟨s, heq.trans h, le_rfl⟩
    · rw [h] at heq
      simp only [Option.getD_some] at heq
      exact ⟨s, heq, le_rfl⟩
  | disconnect pin2 pid2 =>
    exact ⟨s, (getScore_disconnect gs pin2 pid2 pin pid).trans h, le_rfl⟩
  | chart pin2 => exact ⟨s, h, le_rfl⟩
  | leaderboard pin2 => exact ⟨s, h, le_rfl⟩
  | message pin2 pid2 role2 data now =>
    cases hg : alookup gs pin2 with
    | none =>
      refine ⟨s, ?_, le_rfl⟩
      rw [step_message_eq, hg]
      exact h
    | some g =>
      rcases handle_message_players_cases g pid2 role2 data now with
        hpl | ⟨p, cs, hp, hcs, hpl⟩
      · refine ⟨s, ?_, le_rfl⟩
        rw [step_message_eq, hg]
        show getScore (aset gs pin2 (handle_message g pid2 role2 data now).game)
          pin pid = some s
        rw [getScore_aset_same_players gs pin2 g _ hg hpl pin pid]
        exact h
      · by_cases hpin : pin = pin2
        · subst hpin
          have hs : (alookup g.players pid).map Player.score = some s := by
            rw [getScore_eq gs pin pid g hg] at h
            exact h
          obtain ⟨s2, hs2, hle⟩ :=
            players_score_mono g.players pid2 pid p cs hcs hp s hs
          refine ⟨s2, ?_, hle⟩
          rw [step_message_eq, hg]
          show getScore (aset gs pin (handle_message g pid2 role2 data now).game)
            pin pid = some s2
          rw [getScore_eq _ pin pid (handle_message g pid2 role2 data now).game
              (by rw [alookup_aset_self, hg]; rfl), hpl]
          exact hs2
        · refine ⟨s, ?_, le_rfl⟩
          rw [step_message_eq, hg]
          show getScore (aset gs pin2 (handle_message g pid2 role2 data now).game)
            pin pid = some s
          unfold getScore
          rw [alookup_aset_ne _ _ _ _ hpin]
          exact h

/-- No operation can introduce a negative score. -/
theorem step_nonneg (gs : Games) (op : Op)
    (h : ∀ pin pid s, getScore gs pin pid = some s → 0 ≤ s) :
    ∀ pin pid s, getScore (step gs op) pin pid = some s → 0 ≤ s := by
  intro pin pid s hs
  cases op with
  | advance pin2 now =>
    rw [step_advance_eq, getScore_nq_state] at hs
    exact h pin pid s hs
  | deadline pin2 qi =>
    rw [step_deadline_eq, getScore_lock_question] at hs
    exact h pin pid s hs
  | connect pin2 pid2 name =>
    rw [step_connect_eq] at hs
    rcases getScore_connect gs pin2 pid2 name pin pid with heq | ⟨hpin, hpid, heq⟩
    · rw [heq] at hs
      exact h pin pid s hs
    · rw [heq] at hs
      injection hs with hs
      cases hgd : getScore gs pin pid with
      | none =>
        rw [hgd] at hs
        simp at hs
        omega
      | some s0 =>
        rw [hgd] at hs
        simp at hs
        have h0 := h pin pid s0 hgd
        omega
  | disconnect pin2 pid2 =>
    rw [step_disconnect_eq, getScore_disconnect] at hs
    exact h pin pid s hs
  | chart pin2 => exact h pin pid s hs
  | leaderboard pin2 => exact h pin pid s hs
  | message pin2 pid2 role2 data now =>
    rw [step_message_eq] at hs
    cases hg : alookup gs pin2 with
    | none =>
      rw [hg] at hs
      exact h pin pid s hs
    | some g =>
      rw [hg] at hs
      have hs2 : getScore (aset gs pin2 (handle_message g pid2 role2 data now).game)
          pin pid = some s := hs
      rcases handle_message_players_cases g pid2 role2 data now with
        hpl | ⟨p, cs, hp, hcs, hpl⟩
      · rw [getScore_aset_same_players gs pin2 g _ hg hpl pin pid] at hs2
        exact h pin pid s hs2
      · by_cases hpin : pin = pin2
        · subst hpin
          rw [getScore_eq _ pin pid (handle_message g pid2 role2 data now).game
              (by rw [alookup_aset_self, hg]; rfl), hpl] at hs2
          exact players_score_nonneg_pres g.players pid2 p cs hcs hp
            (fun pid3 s3 h3 => h pin pid3 s3
              (by rw [getScore_eq gs pin pid3 g hg]; exact h3)) pid s hs2
        · unfold getScore at hs2
          rw [alookup_aset_ne _ _ _ _ hpin] at hs2
          exact h pin pid s hs2

theorem runOps_nonneg (ops : List Op) : ∀ gs : Games,
    (∀ pin pid s, getScore gs pin pid = some s → 0 ≤ s) →
    ∀ pin pid s, getScore (runOps gs ops) pin pid = some s → 0 ≤ s := by
  induction ops with
  | nil => intro gs h; exact h
  | cons op rest ih =>
    intro gs h
    exact ih (step gs op) (step_nonneg gs op h)

theorem connect_preserves_score (gs : Games) (pin pid name : String) (s : ℤ)
    (h : getScore gs pin pid = some s) :
    getScore ((ws_connect gs pin pid name).2.1) pin pid = some s := by
  rcases getScore_connect gs pin pid name pin pid with heq | ⟨_, _, heq⟩
  · exact heq.trans h
  · rw [h] at heq
    simpa using heq

/-- C9: a participant's score never decreases under any operation of the
system, scores stay non-negative over any operation sequence started from a
registry whose scores are non-negative (in particular from fresh rooms, whose
participant maps are empty), and a reconnect with the same participant id
preserves the prior score exactly. -/
theorem claim_C9_scores_monotone :
    (∀ gs op pin pid s, getScore gs pin pid = some s →
      ∃ s2, getScore (step gs op) pin pid = some s2 ∧ s ≤ s2) ∧
    (∀ gs : Games, (∀ pin pid s, getScore gs pin pid = some s → 0 ≤ s) →
      ∀ ops pin pid s, getScore (runOps gs ops) pin pid = some s → 0 ≤ s) ∧
    (∀ gs pin pid name s, getScore gs pin pid = some s →
      getScore ((ws_connect gs pin pid name).2.1) pin pid = some s) :=
  ⟨fun gs op pin pid s h => step_mono gs op pin pid s h,
   fun gs h ops pin pid s hs => runOps_nonneg ops gs h pin pid s hs,
   fun gs pin pid name s h => connect_preserves_score gs pin pid name s h⟩

/-- C9 witness: player `p1` (score 3) reconnects under a new display name and
keeps score 3. -/
theorem claim_C9_witness :
    getScore ((ws_connect [("AAAAAA", gFull)] "AAAAAA" "p1" "Pat2").2.1)
      "AAAAAA" "p1" = some 3 :=
  claim_C9_scores_monotone.2.2 [("AAAAAA", gFull)] "AAAAAA" "p1" "Pat2" 3 (by decide)

end Kahoot
